import Mathlib

/-!
Verification of the daily-analyst record reconstruction and analytics engine.

The Python source is shallowly embedded: Python floats become exact
rationals (ℚ), `datetime.date` becomes ℤ (a day number — only ordering and
day arithmetic are used), optional values become `Option`, and Python's
`round(x, nd)` (round half to even) is modelled exactly by `pyRound`.
Text parsing (`re.search` with the source's concrete patterns) is modelled
by hand-rolled leftmost-match scanners over `List Char`; ASCII case folding
models Python's `str.upper`/`str.lower` on the inputs in question.
Strings produced only for human display (GPT prompts, Russian factor
messages) are modelled structurally where noted; GPT-generated fields
(`ai_insights`, `recommendation`) are external collaborators and are not
part of the embedded results.
-/

namespace DailyAnalyst

/-! ## Python-like text primitives -/

abbrev Chars := List Char

/-- ASCII upper-casing of one character, as Python's str.upper on ASCII. -/
def pyUpperChar (c : Char) : Char :=
  if 'a' ≤ c ∧ c ≤ 'z' then Char.ofNat (c.toNat - 32) else c

/-- ASCII lower-casing of one character, as Python's str.lower on ASCII. -/
def pyLowerChar (c : Char) : Char :=
  if 'A' ≤ c ∧ c ≤ 'Z' then Char.ofNat (c.toNat + 32) else c

def pyUpper (s : Chars) : Chars := s.map pyUpperChar

def pyLower (s : Chars) : Chars := s.map pyLowerChar

def pyUpperStr (s : String) : String := String.mk (pyUpper s.data)

/-- Python regex \s (ASCII part): space, tab, newline, CR, VT, FF. -/
def pySpace (c : Char) : Bool :=
  c == ' ' || c == '\t' || c == '\n' || c == '\r' || c == Char.ofNat 11 || c == Char.ofNat 12

def pyDigit (c : Char) : Bool := '0' ≤ c && c ≤ '9'

/-- Python str.strip(): drop whitespace from both ends. -/
def pyStrip (s : Chars) : Chars :=
  ((s.dropWhile pySpace).reverse.dropWhile pySpace).reverse

/-- Does the needle occur at the head of the haystack? -/
def leadMatch : Chars → Chars → Bool
  | [], _ => true
  | _ :: _, [] => false
  | a :: as, b :: bs => a == b && leadMatch as bs

/-- Python's `needle in haystack` substring test. -/
def containsSub (needle : Chars) : Chars → Bool
  | [] => leadMatch needle []
  | c :: rest => leadMatch needle (c :: rest) || containsSub needle rest

/-- The apostrophe character, U+0027. -/
def apos : Char := Char.ofNat 39

/-- The Notion title "MARK'S WEAK" (weekly-summary marker, sic). -/
def marksWeak : String := String.mk (['M','A','R','K'] ++ [apos] ++ ['S',' ','W','E','A','K'])

/-- The Notion title "MARK'S WEEK" (weekly-summary marker). -/
def marksWeek : String := String.mk (['M','A','R','K'] ++ [apos] ++ ['S',' ','W','E','E','K'])

/-! ## Python round-half-to-even -/

/-- Python's built-in round to an integer: round half to even. -/
def pyRoundInt (q : ℚ) : ℤ :=
  if q - ⌊q⌋ < 1/2 then ⌊q⌋
  else if (1 : ℚ)/2 < q - ⌊q⌋ then ⌊q⌋ + 1
  else if ⌊q⌋ % 2 = 0 then ⌊q⌋ else ⌊q⌋ + 1

/-- Python's `round(q, nd)` for `nd` decimal places. -/
def pyRound (nd : ℕ) (q : ℚ) : ℚ :=
  (pyRoundInt (q * (10 : ℚ) ^ nd) : ℚ) / (10 : ℚ) ^ nd

/-- `statistics.mean` (callers in the source guard non-emptiness). -/
def qmean (l : List ℚ) : ℚ := l.sum / l.length

/-! ## Data model (src/models/journal_entry.py) -/

inductive DayRating
  | perfect | very_good | good | normal | bad | very_bad
deriving DecidableEq, Repr

/-- DayRating.score: perfect 6 … very bad 1. -/
def DayRating.score : DayRating → ℚ
  | .perfect => 6
  | .very_good => 5
  | .good => 4
  | .normal => 3
  | .bad => 2
  | .very_bad => 1

/-- DayRating.is_good: score >= 4. -/
def DayRating.is_good (r : DayRating) : Bool := decide (4 ≤ r.score)

inductive TestikStatus
  | PLUS | MINUS | MINUS_KATE
deriving DecidableEq, Repr

structure SleepInfo where
  woke_up_at : Option String := none
  sleep_duration : Option String := none
  sleep_hours : Option ℚ := none
  recovery : Option ℤ := none
deriving DecidableEq, Repr

structure TaskEntry where
  id : String
  title : String
  entry_date : ℤ
  tags : List String := []
  checkbox : Bool := false
  hours : Option ℚ := none
  body_text : String := ""
deriving DecidableEq, Repr

structure DailyRecord where
  entry_date : ℤ
  rating : Option DayRating := none
  testik : Option TestikStatus := none
  sleep : SleepInfo := {}
  activities : List String := []
  total_hours : ℚ := 0
  tasks_count : ℕ := 0
  tasks_completed : ℕ := 0
  had_workout : Bool := false
  had_university : Bool := false
  had_coding : Bool := false
  had_kate : Bool := false
  journal_text : String := ""
  is_weekly_summary : Bool := false
deriving DecidableEq, Repr

/-! ## DailyRecord.productivity_score -/

/-- Rating component: (score/6)*25 when present, else a neutral 12.5. -/
def ratingComponent (r : DailyRecord) : ℚ :=
  match r.rating with
  | some x => x.score / 6 * 25
  | none => 25/2

/-- Hours component: min(total_hours/10*25, 25). -/
def hoursComponent (r : DailyRecord) : ℚ := min (r.total_hours / 10 * 25) 25

/-- Sleep component: min(h/8*20, 20) when known and >= 4; 0 when known below 4;
neutral 10 when unknown. -/
def sleepComponent (r : DailyRecord) : ℚ :=
  match r.sleep.sleep_hours with
  | some h => if 4 ≤ h then min (h / 8 * 20) 20 else 0
  | none => 10

/-- Task-count component: min(tasks_count/6*15, 15). -/
def activityComponent (r : DailyRecord) : ℚ := min ((r.tasks_count : ℚ) / 6 * 15) 15

/-- Bonus: +5 for each of workout, university, coding. -/
def bonusComponent (r : DailyRecord) : ℚ :=
  (if r.had_workout then 5 else 0) + (if r.had_university then 5 else 0)
    + (if r.had_coding then 5 else 0)

/-- DailyRecord.productivity_score (src/models/journal_entry.py). -/
def DailyRecord.productivity_score (r : DailyRecord) : ℚ :=
  pyRound 1 (ratingComponent r + hoursComponent r + sleepComponent r
    + activityComponent r + bonusComponent r)

/-! ## Text parsers (src/utils/validators.py) -/

/-- parse_testik: case-insensitive substring checks, partner pattern first. -/
def parse_testik (text : String) : Option TestikStatus :=
  let u := pyUpper text.data
  if containsSub "MINUS TESTIK KATE".data u || containsSub "MINUS TEST KATE".data u then
    some .MINUS_KATE
  else if containsSub "MINUS TESTIK".data u || containsSub "MINUS TEST".data u then
    some .MINUS
  else if containsSub "PLUS TESTIK".data u || containsSub "PLUS TEST".data u then
    some .PLUS
  else none

/-- Case-insensitive literal match: consume `lit` (compared lower-cased) from
the head of the input, returning the remainder. -/
def matchCI (lit : Chars) (cs : Chars) : Option Chars :=
  match lit, cs with
  | [], rest => some rest
  | _ :: _, [] => none
  | l :: ls, c :: rest => if pyLowerChar c == l then matchCI ls rest else none

/-- Match `\s+` (one or more whitespace), returning the remainder. -/
def matchSpaces1 (cs : Chars) : Option Chars :=
  match cs with
  | [] => none
  | c :: rest => if pySpace c then some (rest.dropWhile pySpace) else none

/-- Match a sequence of lower-case literal words separated by `\s+`. -/
def matchWords : List Chars → Chars → Option Chars
  | [], cs => some cs
  | [w], cs => matchCI w cs
  | w :: w2 :: ws, cs =>
    match matchCI w cs with
    | none => none
    | some rest =>
      match matchSpaces1 rest with
      | none => none
      | some rest2 => matchWords (w2 :: ws) rest2

/-- The alternatives of the rating regex group, in the source's order:
very good, very bad, perfect, good, normal, bad. -/
def ratingAlts : List (List Chars × DayRating) :=
  [ (["very".data, "good".data], .very_good)
  , (["very".data, "bad".data], .very_bad)
  , (["perfect".data], .perfect)
  , (["good".data], .good)
  , (["normal".data], .normal)
  , (["bad".data], .bad) ]

/-- Try the alternatives in order at the current position (regex alternation). -/
def firstAlt : List (List Chars × DayRating) → Chars → Option DayRating
  | [], _ => none
  | (ws, r) :: alts, cs =>
    match matchWords ws cs with
    | some _ => some r
    | none => firstAlt alts cs

/-- Match `MARK\s*:\s*(alternatives)` (case-insensitive) at this position. -/
def matchMarkAt (cs : Chars) : Option DayRating :=
  match matchCI "mark".data cs with
  | none => none
  | some rest =>
    let rest := rest.dropWhile pySpace
    match rest with
    | ':' :: rest2 => firstAlt ratingAlts (rest2.dropWhile pySpace)
    | _ => none

/-- Leftmost `re.search` scan for the rating pattern. -/
def scanRating : Chars → Option DayRating
  | [] => none
  | c :: rest =>
    match matchMarkAt (c :: rest) with
    | some r => some r
    | none => scanRating rest

/-- parse_day_rating: `re.search(r"MARK\s*:\s*(very\s+good|very\s+bad|perfect|good|normal|bad)", text, re.IGNORECASE)`. -/
def parse_day_rating (text : String) : Option DayRating := scanRating text.data

/-- Match `\d{2}` exactly; return the two digit characters and the remainder. -/
def twoDigits (cs : Chars) : Option (Chars × Chars) :=
  match cs with
  | d1 :: d2 :: rest => if pyDigit d1 && pyDigit d2 then some ([d1, d2], rest) else none
  | _ => none

/-- Match `\d{1,2}[:.]\d{2}` with the regex's greedy backtracking; returns the
captured characters. -/
def matchClock (cs : Chars) : Option Chars :=
  match cs with
  | a :: b :: s :: d1 :: d2 :: _ =>
    if pyDigit a && pyDigit b && (s == ':' || s == '.') && pyDigit d1 && pyDigit d2 then
      some [a, b, s, d1, d2]
    else
      match cs with
      | a :: s :: d1 :: d2 :: _ =>
        if pyDigit a && (s == ':' || s == '.') && pyDigit d1 && pyDigit d2 then
          some [a, s, d1, d2]
        else none
      | _ => none
  | a :: s :: d1 :: d2 :: _ =>
    if pyDigit a && (s == ':' || s == '.') && pyDigit d1 && pyDigit d2 then
      some [a, s, d1, d2]
    else none
  | _ => none

/-- Match `[Ww]oke\s+up\s+at\s+(\d{1,2}[:.]\d{2})` at this position. -/
def matchWokeAt (cs : Chars) : Option Chars :=
  match cs with
  | c :: rest =>
    if c == 'W' || c == 'w' then
      match matchCI "oke".data rest with
      | none => none
      | some r1 =>
        match matchSpaces1 r1 with
        | none => none
        | some r2 =>
          match matchCI "up".data r2 with
          | none => none
          | some r3 =>
            match matchSpaces1 r3 with
            | none => none
            | some r4 =>
              match matchCI "at".data r4 with
              | none => none
              | some r5 =>
                match matchSpaces1 r5 with
                | none => none
                | some r6 => matchClock r6
    else none
  | [] => none

def scanWoke : Chars → Option Chars
  | [] => none
  | c :: rest =>
    match matchWokeAt (c :: rest) with
    | some g => some g
    | none => scanWoke rest

/-- Digit characters to a natural number. -/
def digitsToNat (ds : Chars) : ℕ :=
  ds.foldl (fun acc d => acc * 10 + (d.toNat - '0'.toNat)) 0

/-- Match `(\d{1,2})[:.:](\d{2})` (the char class is {':', '.'}), greedy with
backtracking; returns (hours, minutes). -/
def matchHM (cs : Chars) : Option (ℕ × ℕ) :=
  match cs with
  | a :: b :: s :: d1 :: d2 :: _ =>
    if pyDigit a && pyDigit b && (s == ':' || s == '.') && pyDigit d1 && pyDigit d2 then
      some (digitsToNat [a, b], digitsToNat [d1, d2])
    else
      match cs with
      | a :: s :: d1 :: d2 :: _ =>
        if pyDigit a && (s == ':' || s == '.') && pyDigit d1 && pyDigit d2 then
          some (digitsToNat [a], digitsToNat [d1, d2])
        else none
      | _ => none
  | a :: s :: d1 :: d2 :: _ =>
    if pyDigit a && (s == ':' || s == '.') && pyDigit d1 && pyDigit d2 then
      some (digitsToNat [a], digitsToNat [d1, d2])
    else none
  | _ => none

/-- Match `[Ss]leep\s+time\s+(\d{1,2})[:.:](\d{2})` at this position. -/
def matchSleepAt (cs : Chars) : Option (ℕ × ℕ) :=
  match cs with
  | c :: rest =>
    if c == 'S' || c == 's' then
      match matchCI "leep".data rest with
      | none => none
      | some r1 =>
        match matchSpaces1 r1 with
        | none => none
        | some r2 =>
          match matchCI "time".data r2 with
          | none => none
          | some r3 =>
            match matchSpaces1 r3 with
            | none => none
            | some r4 => matchHM r4
    else none
  | [] => none

def scanSleep : Chars → Option (ℕ × ℕ)
  | [] => none
  | c :: rest =>
    match matchSleepAt (c :: rest) with
    | some g => some g
    | none => scanSleep rest

/-- Match `(\d{1,3})` greedily (nothing follows the group in the pattern). -/
def matchD13 (cs : Chars) : Option ℕ :=
  match cs with
  | a :: b :: c :: _ =>
    if pyDigit a then
      if pyDigit b then
        if pyDigit c then some (digitsToNat [a, b, c])
        else some (digitsToNat [a, b])
      else some (digitsToNat [a])
    else none
  | a :: b :: _ =>
    if pyDigit a then
      if pyDigit b then some (digitsToNat [a, b]) else some (digitsToNat [a])
    else none
  | a :: _ => if pyDigit a then some (digitsToNat [a]) else none
  | [] => none

/-- Match `[Rr]ecovery\s+(\d{1,3})` at this position. -/
def matchRecoveryAt (cs : Chars) : Option ℕ :=
  match cs with
  | c :: rest =>
    if c == 'R' || c == 'r' then
      match matchCI "ecovery".data rest with
      | none => none
      | some r1 =>
        match matchSpaces1 r1 with
        | none => none
        | some r2 => matchD13 r2
    else none
  | [] => none

def scanRecovery : Chars → Option ℕ
  | [] => none
  | c :: rest =>
    match matchRecoveryAt (c :: rest) with
    | some g => some g
    | none => scanRecovery rest

/-- Zero-padded two-digit rendering of the minutes, as `f"{m:02d}"`. -/
def pad2 (m : ℕ) : String := if m < 10 then "0" ++ toString m else toString m

/-- parse_sleep_info: the three independent regex extractions. -/
def parse_sleep_info (text : String) : SleepInfo :=
  let woke := (scanWoke text.data).map
    (fun g => String.mk (g.map (fun c => if c == '.' then ':' else c)))
  let hm := scanSleep text.data
  let dur := hm.map (fun p => toString p.1 ++ ":" ++ pad2 p.2)
  let hrs := hm.map (fun p => pyRound 2 ((p.1 : ℚ) + (p.2 : ℚ) / 60))
  let rec_ := (scanRecovery text.data).map (fun n => (n : ℤ))
  { woke_up_at := woke, sleep_duration := dur, sleep_hours := hrs, recovery := rec_ }

/-! ## Stable sorting (Python `sorted` / `list.sort` are stable) -/

/-- Insert `x` after every element `h` with `le h x` (stable insertion). -/
def insByLe (le : α → α → Bool) (x : α) : List α → List α
  | [] => [x]
  | h :: t => if le h x then h :: insByLe le x t else x :: h :: t

/-- Stable insertion sort: equal-key elements keep their input order,
matching Python's stable `sorted`. -/
def stableSortBy (le : α → α → Bool) (l : List α) : List α :=
  l.foldl (fun acc x => insByLe le x acc) []

/-- Python `sorted(recs, key=lambda r: r.entry_date)`. -/
def sortRecsAsc (l : List DailyRecord) : List DailyRecord :=
  stableSortBy (fun a b => decide (a.entry_date ≤ b.entry_date)) l

/-- Python `sorted(recs, key=lambda r: r.entry_date, reverse=True)`. -/
def sortRecsDesc (l : List DailyRecord) : List DailyRecord :=
  stableSortBy (fun a b => decide (b.entry_date ≤ a.entry_date)) l

def sortIntsAsc (l : List ℤ) : List ℤ := stableSortBy (fun a b => decide (a ≤ b)) l

def sortIntsDesc (l : List ℤ) : List ℤ := stableSortBy (fun a b => decide (b ≤ a)) l

/-! ## Record aggregation (src/services/notion_service.py, _aggregate_daily) -/

/-- _WORKOUT_TAGS. -/
def workoutTags : List String := ["GYM", "WORKOUT", "FOOTBALL", "TENNIS", "PADEL", "SPORT"]

/-- _UNI_TAGS. -/
def uniTags : List String := ["UNIVERSITY", "UNI"]

/-- _CODING_TAGS. -/
def codingTags : List String := ["CODING", "CODE", "PROGRAMMING"]

/-- _KATE_TAGS. -/
def kateTags : List String := ["KATE"]

/-- The per-day loop state of _aggregate_daily. -/
structure DayAcc where
  mark_task : Option TaskEntry := none
  is_weekly : Bool := false
  all_tags : List String := []
  total_hours : ℚ := 0
  completed : ℕ := 0
  workout : Bool := false
  university : Bool := false
  coding : Bool := false
  kate : Bool := false

/-- Processing of one tag inside the day loop. Note the source checks the
UPPER-CASED tag for membership in `all_tags`, which stores tags in their
ORIGINAL case. -/
def tagStep (a : DayAcc) (tag : String) : DayAcc :=
  let tag_upper := String.mk (pyStrip (pyUpper tag.data))
  let a := if tag_upper ∉ a.all_tags then { a with all_tags := a.all_tags ++ [tag] } else a
  let a := if tag_upper ∈ workoutTags then { a with workout := true } else a
  let a := if tag_upper ∈ uniTags then { a with university := true } else a
  let a := if tag_upper ∈ codingTags then { a with coding := true } else a
  if tag_upper ∈ kateTags then { a with kate := true } else a

/-- Processing of one task row inside the day loop. -/
def dayStep (a : DayAcc) (t : TaskEntry) : DayAcc :=
  let title_upper := String.mk (pyStrip (pyUpper t.title.data))
  let a :=
    if title_upper = "MARK" then { a with mark_task := some t }
    else if title_upper = marksWeak ∨ title_upper = marksWeek then
      { a with is_weekly := true, mark_task := some t }
    else a
  let a := t.tags.foldl tagStep a
  let a := if title_upper ∈ workoutTags then { a with workout := true } else a
  let a := if title_upper ∈ uniTags then { a with university := true } else a
  let a := if title_upper ∈ codingTags then { a with coding := true } else a
  let a := if title_upper ∈ kateTags then { a with kate := true } else a
  let a :=
    match t.hours with
    | some h => if h ≠ 0 then { a with total_hours := a.total_hours + h } else a
    | none => a
  if t.checkbox then { a with completed := a.completed + 1 } else a

/-- Build the DailyRecord of one date from that day's task rows. -/
def buildDay (d : ℤ) (day_tasks : List TaskEntry) : DailyRecord :=
  let acc := day_tasks.foldl dayStep {}
  let parsed : SleepInfo × Option TestikStatus × Option DayRating × String :=
    match acc.mark_task with
    | some mt =>
      if mt.body_text ≠ "" then
        (parse_sleep_info mt.body_text, parse_testik mt.body_text,
          parse_day_rating mt.body_text, mt.body_text)
      else ({}, none, none, "")
    | none => ({}, none, none, "")
  { entry_date := d
    rating := parsed.2.2.1
    testik := parsed.2.1
    sleep := parsed.1
    activities := acc.all_tags
    total_hours := pyRound 1 acc.total_hours
    tasks_count := day_tasks.length
    tasks_completed := acc.completed
    had_workout := acc.workout
    had_university := acc.university
    had_coding := acc.coding
    had_kate := acc.kate
    journal_text := parsed.2.2.2
    is_weekly_summary := acc.is_weekly }

/-- Keys of a Python dict built by grouping on `key`, in first-seen order. -/
def distinctKeys (key : α → ℤ) (l : List α) : List ℤ :=
  l.foldl (fun acc t => if key t ∈ acc then acc else acc ++ [key t]) []

/-- The distinct dates of the input rows, in first-seen order
(the keys of the `defaultdict` grouping). -/
def distinctTaskDates (tasks : List TaskEntry) : List ℤ :=
  distinctKeys (fun t => t.entry_date) tasks

/-- _aggregate_daily: group by date, iterate the groups sorted by date
with `reverse=True` (most recent first), and build one record per date. -/
def aggregate_daily (tasks : List TaskEntry) : List DailyRecord :=
  (sortIntsDesc (distinctTaskDates tasks)).map
    (fun d => buildDay d (tasks.filter (fun t => t.entry_date = d)))

/-! ## Analytics engine (src/services/ai_analyzer.py)

Every function below first drops period-summary rows:
`[r for r in records if not r.is_weekly_summary]`.  Each is embedded as a
`...Core` function of the already filtered list, with the public wrapper
applying the filter, mirroring the source line. -/

def notWeekly (r : DailyRecord) : Bool := !r.is_weekly_summary

structure StreakInfo where
  name : String
  emoji : String
  current : ℕ := 0
  record : ℕ := 0
  last_date : Option ℤ := none
deriving DecidableEq, Repr

/-- Distinct entry dates (the keys of `{r.entry_date: r for r in days}`). -/
def distinctRecDates (rs : List DailyRecord) : List ℤ :=
  distinctKeys (fun r => r.entry_date) rs

/-- The cur-streak loop: walk `dates_desc`, counting until the first date
not in `mset`. -/
def current_streak (mset : List ℤ) : List ℤ → ℕ
  | [] => 0
  | d :: rest => if d ∈ mset then current_streak mset rest + 1 else 0

/-- The record-streak loop with its `best`/`run` accumulators. -/
def recordGo (mset : List ℤ) (best run : ℕ) : List ℤ → ℕ
  | [] => max best run
  | d :: rest =>
    if d ∈ mset then recordGo mset best (run + 1) rest
    else recordGo mset (max best run) 0 rest

def record_streak (mset : List ℤ) (ds : List ℤ) : ℕ := recordGo mset 0 0 ds

/-- The set `{r.entry_date for r in days if p r}` (used only for membership). -/
def matchDates (p : DailyRecord → Bool) (days : List DailyRecord) : List ℤ :=
  (days.filter p).map (fun r => r.entry_date)

def predPlus (r : DailyRecord) : Bool := decide (r.testik = some .PLUS)

def predGym (r : DailyRecord) : Bool := r.had_workout

/-- `[a for a in r.activities if a.upper() not in ("MARK", "MARK'S WEAK", "MARK'S WEEK")]`. -/
def workActs (r : DailyRecord) : List String :=
  r.activities.filter (fun a =>
    decide (pyUpperStr a ≠ "MARK" ∧ pyUpperStr a ≠ marksWeak ∧ pyUpperStr a ≠ marksWeek))

def predWork (r : DailyRecord) : Bool :=
  decide (2 ≤ (workActs r).length) || decide ((1 : ℚ) ≤ r.total_hours)

def predGoodRating (r : DailyRecord) : Bool :=
  match r.rating with
  | some x => x.is_good
  | none => false

def predSleep7 (r : DailyRecord) : Bool :=
  match r.sleep.sleep_hours with
  | some h => decide ((7 : ℚ) ≤ h)
  | none => false

/-- One StreakInfo entry, as each of the five `result.append` blocks. -/
def mkStreak (dates_asc dates_desc : List ℤ) (days : List DailyRecord)
    (name emoji : String) (p : DailyRecord → Bool) : StreakInfo :=
  let m := matchDates p days
  { name := name
    emoji := emoji
    current := current_streak m dates_desc
    record := record_streak m dates_asc
    last_date :=
      match dates_desc.head? with
      | some l => if l ∈ m then some l else none
      | none => none }

def compute_streaksCore (days0 : List DailyRecord) : List StreakInfo :=
  let days := sortRecsAsc days0
  if days.isEmpty then []
  else
    let dates_asc := sortIntsAsc (distinctRecDates days)
    let dates_desc := dates_asc.reverse
    [ mkStreak dates_asc dates_desc days "TESTIK PLUS" "✅" predPlus
    , mkStreak dates_asc dates_desc days "GYM" "🏋️" predGym
    , mkStreak dates_asc dates_desc days "WORK" "📋" predWork
    , mkStreak dates_asc dates_desc days "Оценка ≥ good" "😊" predGoodRating
    , mkStreak dates_asc dates_desc days "Сон ≥ 7ч" "😴" predSleep7 ]

def compute_streaks (records : List DailyRecord) : List StreakInfo :=
  compute_streaksCore (records.filter notWeekly)

/-! ### predict_burnout -/

/-- The burnout risk factors, modelled structurally; the source stores
human-readable Russian strings with the same case structure. -/
inductive BFactor
  | insufficientData | minusStreakHigh | minusStreakMid | sleepBelow6 | sleepBelow7
  | ratingLow | overwork | noWorkoutDays | fewTasks | noCritical
deriving DecidableEq, Repr

/-- BurnoutRisk result (the GPT `recommendation` field is external). -/
structure BurnoutRisk where
  risk_level : String
  risk_score : ℚ
  factors : List BFactor
deriving DecidableEq, Repr

/-- Consecutive MINUS / MINUS_KATE days from the most recent day backward. -/
def minusStreakOf (last7 : List DailyRecord) : ℕ :=
  (last7.takeWhile (fun r =>
    decide (r.testik = some .MINUS) || decide (r.testik = some .MINUS_KATE))).length

/-- Python truthiness filter `if r.sleep.sleep_hours` (drops None and 0). -/
def truthySleep (r : DailyRecord) : Option ℚ :=
  match r.sleep.sleep_hours with
  | some h => if h ≠ 0 then some h else none
  | none => none

/-- Factor 1: consecutive negative-abstinence days: >=3 adds 30, ==2 adds 15. -/
def minusRiskOf (last7 : List DailyRecord) : ℚ :=
  if 3 ≤ minusStreakOf last7 then 30 else if 2 ≤ minusStreakOf last7 then 15 else 0

def minusFOf (last7 : List DailyRecord) : List BFactor :=
  if 3 ≤ minusStreakOf last7 then [.minusStreakHigh]
  else if 2 ≤ minusStreakOf last7 then [.minusStreakMid] else []

/-- Factor 2: mean (truthy) sleep hours: <6 adds 25, <7 adds 10. -/
def sleepRiskOf (last7 : List DailyRecord) : ℚ :=
  let sleep_vals := last7.filterMap truthySleep
  if sleep_vals.isEmpty then 0
  else if qmean sleep_vals < 6 then 25 else if qmean sleep_vals < 7 then 10 else 0

def sleepFOf (last7 : List DailyRecord) : List BFactor :=
  let sleep_vals := last7.filterMap truthySleep
  if sleep_vals.isEmpty then []
  else if qmean sleep_vals < 6 then [.sleepBelow6]
  else if qmean sleep_vals < 7 then [.sleepBelow7] else []

/-- Factor 3: mean rating below 3, when at least 3 ratings are present. -/
def ratingRiskOf (last7 : List DailyRecord) : ℚ :=
  let ratings := last7.filterMap (fun r => r.rating.map DayRating.score)
  if 3 ≤ ratings.length ∧ qmean ratings < 3 then 20 else 0

def ratingFOf (last7 : List DailyRecord) : List BFactor :=
  let ratings := last7.filterMap (fun r => r.rating.map DayRating.score)
  if 3 ≤ ratings.length ∧ qmean ratings < 3 then [.ratingLow] else []

/-- Factor 4: mean total hours above 10. -/
def hoursRiskOf (last7 : List DailyRecord) : ℚ :=
  if 10 < qmean (last7.map (fun r => r.total_hours)) then 15 else 0

def hoursFOf (last7 : List DailyRecord) : List BFactor :=
  if 10 < qmean (last7.map (fun r => r.total_hours)) then [.overwork] else []

/-- Factor 5: at least 5 of the days without a workout. -/
def workoutRiskOf (last7 : List DailyRecord) : ℚ :=
  if 5 ≤ (last7.filter (fun r => !r.had_workout)).length then 10 else 0

def workoutFOf (last7 : List DailyRecord) : List BFactor :=
  if 5 ≤ (last7.filter (fun r => !r.had_workout)).length then [.noWorkoutDays] else []

/-- Factor 6: mean task count below 2. -/
def tasksRiskOf (last7 : List DailyRecord) : ℚ :=
  if qmean (last7.map (fun r => (r.tasks_count : ℚ))) < 2 then 10 else 0

def tasksFOf (last7 : List DailyRecord) : List BFactor :=
  if qmean (last7.map (fun r => (r.tasks_count : ℚ))) < 2 then [.fewTasks] else []

/-- The additive risk total before the cap at 100. -/
def rawRisk (last7 : List DailyRecord) : ℚ :=
  minusRiskOf last7 + sleepRiskOf last7 + ratingRiskOf last7 + hoursRiskOf last7
    + workoutRiskOf last7 + tasksRiskOf last7

/-- `"critical" if risk >= 70 else "high" if risk >= 45 else "medium" if risk >= 20 else "low"`. -/
def levelOf (risk : ℚ) : String :=
  if 70 ≤ risk then "critical"
  else if 45 ≤ risk then "high"
  else if 20 ≤ risk then "medium" else "low"

def factorsOf (last7 : List DailyRecord) : List BFactor :=
  let factors := minusFOf last7 ++ sleepFOf last7 ++ ratingFOf last7 ++ hoursFOf last7
    ++ workoutFOf last7 ++ tasksFOf last7
  if factors.isEmpty then [.noCritical] else factors

def predict_burnoutCore (daysf : List DailyRecord) : BurnoutRisk :=
  let recent := (sortRecsDesc daysf).take 14
  if recent.length < 3 then ⟨"unknown", 0, [.insufficientData]⟩
  else
    let last7 := recent.take 7
    ⟨levelOf (min (rawRisk last7) 100), min (rawRisk last7) 100, factorsOf last7⟩

def predict_burnout (records : List DailyRecord) : BurnoutRisk :=
  predict_burnoutCore (records.filter notWeekly)

/-! ### detect_anomalies -/

structure Anomaly where
  entry_date : ℤ
  score : ℚ
  avg_score : ℚ
  direction : String
  activities : List String
deriving DecidableEq, Repr

/-- `statistics.stdev` squared: sample variance Σ(x-mean)²/(n-1). -/
def sampleVar (l : List ℚ) : ℚ :=
  (l.map (fun x => (x - qmean l) ^ 2)).sum / ((l.length : ℚ) - 1)

def detect_anomaliesCore (daysf : List DailyRecord) : List Anomaly :=
  let days := sortRecsAsc daysf
  if days.length < 7 then []
  else
    let scores := days.map (fun r => r.productivity_score)
    let avg := qmean scores
    let varS := sampleVar scores
    let anomalies := days.filterMap (fun r =>
      let dev := |r.productivity_score - avg|
      -- `deviation > stdev * 1.5` with both sides nonneg ⟺ dev² > 2.25·variance
      if varS * (9/4) < dev ^ 2 then
        some { entry_date := r.entry_date
               score := r.productivity_score
               avg_score := pyRound 1 avg
               direction := if avg < r.productivity_score then "high" else "low"
               activities := r.activities.filter (fun a => decide (a ≠ "MARK")) }
      else none)
    (stableSortBy (fun a b => decide (|b.score - b.avg_score| ≤ |a.score - a.avg_score|))
      anomalies).take 10

def detect_anomalies (records : List DailyRecord) : List Anomaly :=
  detect_anomaliesCore (records.filter notWeekly)

/-! ### analyze_month (pure part; `ai_insights` is external GPT output) -/

structure DaySummary where
  entry_date : ℤ
  productivity_score : ℚ
  rating : Option DayRating
  total_hours : ℚ
  activities : List String
deriving DecidableEq, Repr

structure MonthAnalysis where
  month : String
  total_days : ℕ
  avg_rating_score : ℚ
  avg_hours : ℚ
  avg_sleep_hours : Option ℚ
  total_tasks : ℕ
  workout_rate : ℚ
  university_rate : ℚ
  coding_rate : ℚ
  kate_rate : ℚ
  best_day : Option DaySummary
  worst_day : Option DaySummary
  activity_breakdown : List (String × ℕ)
deriving DecidableEq, Repr

def daySummaryOf (r : DailyRecord) : DaySummary :=
  ⟨r.entry_date, r.productivity_score, r.rating, r.total_hours, r.activities⟩

/-- `Counter[a] += 1` on an insertion-ordered association list. -/
def bumpCount (l : List (String × ℕ)) (a : String) : List (String × ℕ) :=
  match l with
  | [] => [(a, 1)]
  | (k, v) :: rest => if k = a then (k, v + 1) :: rest else (k, v) :: bumpCount rest a

def counterOf (days : List DailyRecord) : List (String × ℕ) :=
  days.foldl (fun acc r => r.activities.foldl bumpCount acc) []

/-- `Counter.most_common(n)`: stable sort by count descending, take n. -/
def mostCommon (n : ℕ) (l : List (String × ℕ)) : List (String × ℕ) :=
  (stableSortBy (fun a b => decide (b.2 ≤ a.2)) l).take n

/-- Python `max(days, key=lambda x: x.productivity_score)` (first max wins). -/
def maxByScore : List DailyRecord → Option DailyRecord
  | [] => none
  | h :: t => some (t.foldl (fun acc r =>
      if acc.productivity_score < r.productivity_score then r else acc) h)

/-- Python `min(days, key=lambda x: x.productivity_score)` (first min wins). -/
def minByScore : List DailyRecord → Option DailyRecord
  | [] => none
  | h :: t => some (t.foldl (fun acc r =>
      if r.productivity_score < acc.productivity_score then r else acc) h)

def analyze_monthCore (daysf : List DailyRecord) (month_label : String) : MonthAnalysis :=
  if daysf.isEmpty then
    { month := month_label, total_days := 0, avg_rating_score := 0, avg_hours := 0
      avg_sleep_hours := none, total_tasks := 0, workout_rate := 0, university_rate := 0
      coding_rate := 0, kate_rate := 0, best_day := none, worst_day := none
      activity_breakdown := [] }
  else
    let days := daysf
    let rating_scores := days.filterMap (fun r => r.rating.map DayRating.score)
    let sleep_vals := days.filterMap truthySleep
    let n : ℚ := days.length
    { month := month_label
      total_days := days.length
      avg_rating_score := if rating_scores.isEmpty then 0 else pyRound 2 (qmean rating_scores)
      avg_hours := pyRound 1 (qmean (days.map (fun r => r.total_hours)))
      avg_sleep_hours := if sleep_vals.isEmpty then none else some (pyRound 1 (qmean sleep_vals))
      total_tasks := (days.map (fun r => r.tasks_count)).sum
      workout_rate := pyRound 2 (((days.filter (fun r => r.had_workout)).length : ℚ) / n)
      university_rate := pyRound 2 (((days.filter (fun r => r.had_university)).length : ℚ) / n)
      coding_rate := pyRound 2 (((days.filter (fun r => r.had_coding)).length : ℚ) / n)
      kate_rate := pyRound 2 (((days.filter (fun r => r.had_kate)).length : ℚ) / n)
      best_day := (maxByScore days).map daySummaryOf
      worst_day := (minByScore days).map daySummaryOf
      activity_breakdown := mostCommon 15 (counterOf days) }

def analyze_month (records : List DailyRecord) (month_label : String) : MonthAnalysis :=
  analyze_monthCore (records.filter notWeekly) month_label

/-! ### compute_life_score -/

structure LifeDimension where
  name : String
  emoji : String
  score : ℚ
  trend : String
deriving DecidableEq, Repr

structure LifeScore where
  total : ℚ
  trend_delta : ℚ
  dimensions : List LifeDimension
  trend_weeks : ℕ
deriving DecidableEq, Repr

def trendArrow (recent prev : List DailyRecord) (fn : List DailyRecord → ℚ) : String :=
  if prev.isEmpty then "→"
  else if fn prev < fn recent then "↑"
  else if fn recent < fn prev then "↓" else "→"

/-- `statistics.mean(l or [dflt])`. -/
def meanOr (dflt : ℚ) (l : List ℚ) : ℚ := if l.isEmpty then dflt else qmean l

def compute_life_scoreCore (daysf : List DailyRecord) : LifeScore :=
  let days := sortRecsDesc daysf
  if days.isEmpty then ⟨0, 0, [], 0⟩
  else
    let recent := days.take 14
    let prev := if 28 ≤ days.length then (days.drop 14).take 14 else []
    let n : ℚ := recent.length
    let prod_scores := recent.map (fun r => r.productivity_score)
    let prod := if prod_scores.isEmpty then 0 else pyRound 1 (qmean prod_scores)
    let sleep_vals := recent.filterMap truthySleep
    let sleep_sc : ℚ :=
      if sleep_vals.isEmpty then 50
      else min 100 (max 0 (100 - |qmean sleep_vals - 15/2| * 20))
    let workout_rate := ((recent.filter (fun r => r.had_workout)).length : ℚ) / n * 100
    let kate_days := recent.filter (fun r => r.had_kate)
    let kate_ratings := kate_days.filterMap (fun r => r.rating.map DayRating.score)
    let rel_sc := min 100 ((kate_days.length : ℚ) / n * 50 +
      (if ¬kate_days.isEmpty ∧ ¬kate_ratings.isEmpty then qmean kate_ratings / 6 * 50 else 25))
    let plus_count := (recent.filter predPlus).length
    let testik_sc := (plus_count : ℚ) / n * 100
    let ratings := recent.filterMap (fun r => r.rating.map DayRating.score)
    let mood_sc := if ratings.isEmpty then 50 else qmean ratings / 6 * 100
    let total := pyRound 1 (qmean [prod, sleep_sc, workout_rate, rel_sc, testik_sc, mood_sc])
    let prev_prod := prev.map (fun r => r.productivity_score)
    let prev_total : ℚ :=
      if prev.isEmpty then 0
      else if prev_prod.isEmpty then 0 else pyRound 1 (qmean prev_prod)
    let trend_weeks : ℕ := if ¬prev.isEmpty ∧ prev_total < total then 1 else 0
    let fnProd := fun (d : List DailyRecord) => qmean (d.map (fun r => r.productivity_score))
    let fnSleep := fun (d : List DailyRecord) => meanOr 0 (d.filterMap truthySleep)
    let fnWorkout := fun (d : List DailyRecord) =>
      ((d.filter (fun r => r.had_workout)).length : ℚ) / (max d.length 1) * 100
    let fnKate := fun (d : List DailyRecord) =>
      ((d.filter (fun r => r.had_kate)).length : ℚ) / (max d.length 1) * 100
    let fnPlus := fun (d : List DailyRecord) =>
      ((d.filter predPlus).length : ℚ) / (max d.length 1) * 100
    let fnMood := fun (d : List DailyRecord) =>
      meanOr 3 (d.filterMap (fun r => r.rating.map DayRating.score)) / 6 * 100
    let dims := [
      (⟨"Продуктивность", "🧠", pyRound 1 prod, trendArrow recent prev fnProd⟩ : LifeDimension)
      , ⟨"Сон", "😴", pyRound 1 sleep_sc, trendArrow recent prev fnSleep⟩
      , ⟨"Физ. форма", "🏋️", pyRound 1 workout_rate, trendArrow recent prev fnWorkout⟩
      , ⟨"Отношения", "💕", pyRound 1 rel_sc, trendArrow recent prev fnKate⟩
      , ⟨"TESTIK", "🧪", pyRound 1 testik_sc, trendArrow recent prev fnPlus⟩
      , ⟨"Настроение", "😊", pyRound 1 mood_sc, trendArrow recent prev fnMood⟩ ]
    ⟨total, pyRound 1 (total - prev_total), dims, trend_weeks⟩

def compute_life_score (records : List DailyRecord) : LifeScore :=
  compute_life_scoreCore (records.filter notWeekly)

/-! ### compute_correlations (pure part; `ai_insights` is external) -/

structure ActivityCorrelation where
  activity : String
  avg_rating : ℚ
  count : ℕ
  vs_baseline : ℚ
deriving DecidableEq, Repr

/-- A combo statistic, modelled structurally; the source renders it as the
string f"{a}+{b}: avg_rating={avg} (n={n})". -/
structure ComboInsight where
  a : String
  b : String
  avg_rating : ℚ
  n : ℕ
deriving DecidableEq, Repr

structure CorrelationMatrix where
  baseline_rating : ℚ
  correlations : List ActivityCorrelation
  combo_insights : List ComboInsight
deriving DecidableEq, Repr

/-- `activity_to_ratings` update: ensure the key exists, append when rated. -/
def addRating (a : String) (sc : Option ℚ) : List (String × List ℚ) → List (String × List ℚ)
  | [] => [(a, sc.toList)]
  | (k, v) :: rest => if k = a then (k, v ++ sc.toList) :: rest else (k, v) :: addRating a sc rest

def activityRatings (days : List DailyRecord) : List (String × List ℚ) :=
  days.foldl (fun acc r =>
    (r.activities.filter (fun a => decide (a ≠ "MARK"))).foldl
      (fun ac a => addRating a (r.rating.map DayRating.score) ac) acc) []

def addCombo (key : String × String) (sc : ℚ) :
    List ((String × String) × List ℚ) → List ((String × String) × List ℚ)
  | [] => [(key, [sc])]
  | (k, v) :: rest => if k = key then (k, v ++ [sc]) :: rest else (k, v) :: addCombo key sc rest

/-- The ordered pairs (i, j) with i before j, as the nested loops produce them. -/
def pairsOf : List String → List (String × String)
  | [] => []
  | a :: rest => rest.map (fun b => (a, b)) ++ pairsOf rest

/-- `(min(a, b), max(a, b))` under Python's lexicographic string order. -/
def comboKey (a b : String) : String × String := if b < a then (b, a) else (a, b)

def comboRatings (days : List DailyRecord) : List ((String × String) × List ℚ) :=
  days.foldl (fun acc r =>
    match r.rating with
    | none => acc
    | some rt =>
      (pairsOf (r.activities.filter (fun a => decide (a ≠ "MARK")))).foldl
        (fun ac p => addCombo (comboKey p.1 p.2) rt.score ac) acc) []

def compute_correlationsCore (daysf : List DailyRecord) : CorrelationMatrix :=
  if daysf.isEmpty then ⟨0, [], []⟩
  else
    let days := daysf
    let all_ratings := days.filterMap (fun r => r.rating.map DayRating.score)
    let baseline := if all_ratings.isEmpty then 0 else pyRound 2 (qmean all_ratings)
    let corrs := (activityRatings days).filterMap (fun kv =>
      if kv.2.length < 3 then none
      else
        let avg := pyRound 2 (qmean kv.2)
        some (⟨kv.1, avg, kv.2.length, pyRound 2 (avg - baseline)⟩ : ActivityCorrelation))
    let corrs := stableSortBy (fun a b => decide (b.vs_baseline ≤ a.vs_baseline)) corrs
    let combos := (stableSortBy (fun a b => decide (b.2.length ≤ a.2.length))
      (comboRatings days)).take 5
    let combo_insights := combos.filterMap (fun kv =>
      if 3 ≤ kv.2.length then
        some (⟨kv.1.1, kv.1.2, pyRound 2 (qmean kv.2), kv.2.length⟩ : ComboInsight)
      else none)
    ⟨baseline, corrs, combo_insights⟩

def compute_correlations (records : List DailyRecord) : CorrelationMatrix :=
  compute_correlationsCore (records.filter notWeekly)

/-! ### compute_goal_progress -/

structure Goal where
  id : String
  user_id : ℤ
  name : String
  target_activity : String
  target_count : ℕ
  period : String := "week"
deriving DecidableEq, Repr

structure GoalProgress where
  goal : Goal
  current : ℕ
  target : ℕ
  percentage : ℚ
deriving DecidableEq, Repr

/-- _goal_activity_matches. -/
def goal_activity_matches (r : DailyRecord) (activity : String) : Bool :=
  let au := pyUpperStr activity
  if au = "GYM" ∨ au = "WORKOUT" then r.had_workout
  else if au = "CODING" then r.had_coding
  else if au = "KATE" then r.had_kate
  else if au = "UNIVERSITY" then r.had_university
  else if au = "TESTIK_PLUS" ∨ au = "PLUS" then decide (r.testik = some .PLUS)
  else decide (activity ∈ r.activities)

def compute_goal_progressCore (goals : List Goal) (daysf : List DailyRecord) :
    List GoalProgress :=
  let days := sortRecsDesc daysf
  match days.head? with
  | none => goals.map (fun g => ⟨g, 0, g.target_count, 0⟩)
  | some first =>
    let today := first.entry_date
    goals.map (fun g =>
      let start := today - (if g.period = "week" then 6 else 29)
      let current := (days.filter (fun r =>
        decide (start ≤ r.entry_date) && goal_activity_matches r g.target_activity)).length
      let pct : ℚ :=
        if g.target_count ≠ 0 then pyRound 1 ((current : ℚ) / g.target_count * 100) else 0
      ⟨g, current, g.target_count, min pct 100⟩)

def compute_goal_progress (goals : List Goal) (records : List DailyRecord) :
    List GoalProgress :=
  compute_goal_progressCore goals (records.filter notWeekly)

/-! ## Lemmas about the sorting and grouping helpers -/

theorem insByLe_perm (le : α → α → Bool) (x : α) (l : List α) :
    List.Perm (insByLe le x l) (x :: l) := by
  induction l with
  | nil => simp [insByLe]
  | cons h t ih =>
    unfold insByLe
    split
    · exact (List.Perm.cons h ih).trans (List.Perm.swap x h t)
    · exact List.Perm.refl _

theorem foldl_ins_perm (le : α → α → Bool) :
    ∀ (l acc : List α), List.Perm (l.foldl (fun a x => insByLe le x a) acc) (acc ++ l) := by
  intro l
  induction l with
  | nil => intro acc; simp
  | cons x t ih =>
    intro acc
    have h1 : List.Perm (t.foldl (fun a x => insByLe le x a) (insByLe le x acc))
        (insByLe le x acc ++ t) := ih _
    have h2 : List.Perm (insByLe le x acc ++ t) ((x :: acc) ++ t) :=
      (insByLe_perm le x acc).append_right t
    have h3 : List.Perm ((x :: acc) ++ t) (acc ++ x :: t) :=
      List.Perm.symm (List.perm_middle : List.Perm (acc ++ x :: t) (x :: (acc ++ t)))
    simpa using h1.trans (h2.trans h3)

theorem stableSortBy_perm (le : α → α → Bool) (l : List α) :
    List.Perm (stableSortBy le l) l := by
  simpa using foldl_ins_perm le l []

theorem mem_insByLe (le : α → α → Bool) (x y : α) (l : List α) :
    y ∈ insByLe le x l ↔ y = x ∨ y ∈ l := by
  rw [(insByLe_perm le x l).mem_iff]; simp

theorem insByLe_pairwise (le : α → α → Bool)
    (htot : ∀ a b, le a b = true ∨ le b a = true)
    (htr : ∀ a b c, le a b = true → le b c = true → le a c = true)
    (x : α) (l : List α) (hl : l.Pairwise (fun a b => le a b = true)) :
    (insByLe le x l).Pairwise (fun a b => le a b = true) := by
  induction l with
  | nil => simp [insByLe]
  | cons h t ih =>
    rcases List.pairwise_cons.mp hl with ⟨hh, ht⟩
    unfold insByLe
    split
    case isTrue hcase =>
      refine List.Pairwise.cons ?_ (ih ht)
      intro y hy
      rcases (mem_insByLe le x y t).mp hy with rfl | hyt
      · exact hcase
      · exact hh y hyt
    case isFalse hcase =>
      refine List.Pairwise.cons ?_ hl
      intro y hy
      have hxh : le x h = true := by
        rcases htot x h with h1 | h1
        · exact h1
        · exact absurd h1 hcase
      rcases List.mem_cons.mp hy with rfl | hyt
      · exact hxh
      · exact htr x h y hxh (hh y hyt)

theorem stableSortBy_pairwise (le : α → α → Bool)
    (htot : ∀ a b, le a b = true ∨ le b a = true)
    (htr : ∀ a b c, le a b = true → le b c = true → le a c = true)
    (l : List α) :
    (stableSortBy le l).Pairwise (fun a b => le a b = true) := by
  suffices h : ∀ (l acc : List α), acc.Pairwise (fun a b => le a b = true) →
      (l.foldl (fun a x => insByLe le x a) acc).Pairwise (fun a b => le a b = true) by
    exact h l [] (by simp)
  intro l
  induction l with
  | nil => intro acc hacc; simpa using hacc
  | cons x t ih =>
    intro acc hacc
    simpa using ih (insByLe le x acc) (insByLe_pairwise le htot htr x acc hacc)

theorem sortIntsDesc_pairwise (l : List ℤ) :
    (sortIntsDesc l).Pairwise (fun a b => b ≤ a) := by
  have := stableSortBy_pairwise (fun a b : ℤ => decide (b ≤ a))
    (fun a b => by rcases le_total b a with h | h <;> simp [h])
    (fun a b c h1 h2 => by
      simp only [decide_eq_true_eq] at h1 h2 ⊢
      exact h2.trans h1) l
  exact this.imp (fun h => by simpa using h)

theorem sortIntsAsc_pairwise (l : List ℤ) :
    (sortIntsAsc l).Pairwise (fun a b => a ≤ b) := by
  have := stableSortBy_pairwise (fun a b : ℤ => decide (a ≤ b))
    (fun a b => by rcases le_total a b with h | h <;> simp [h])
    (fun a b c h1 h2 => by
      simp only [decide_eq_true_eq] at h1 h2 ⊢
      exact h1.trans h2) l
  exact this.imp (fun h => by simpa using h)

theorem mem_distinctKeys (key : α → ℤ) (l : List α) (d : ℤ) :
    d ∈ distinctKeys key l ↔ ∃ x ∈ l, key x = d := by
  suffices h : ∀ (l : List α) (acc : List ℤ) (d : ℤ),
      d ∈ l.foldl (fun acc t => if key t ∈ acc then acc else acc ++ [key t]) acc ↔
        d ∈ acc ∨ ∃ x ∈ l, key x = d by
    simpa [distinctKeys] using h l [] d
  intro l
  induction l with
  | nil => intro acc d; simp
  | cons x t ih =>
    intro acc d
    rw [List.foldl_cons, ih]
    have hstep : d ∈ (if key x ∈ acc then acc else acc ++ [key x]) ↔
        d ∈ acc ∨ key x = d := by
      by_cases hx : key x ∈ acc
      · simp only [hx, if_true]
        constructor
        · exact Or.inl
        · rintro (h | h)
          · exact h
          · exact h ▸ hx
      · simp only [hx, if_false, List.mem_append, List.mem_singleton]
        constructor
        · rintro (h | h)
          · exact Or.inl h
          · exact Or.inr h.symm
        · rintro (h | h)
          · exact Or.inl h
          · exact Or.inr h.symm
    rw [hstep]
    simp only [List.mem_cons, exists_eq_or_imp]
    tauto

theorem nodup_distinctKeys (key : α → ℤ) (l : List α) :
    (distinctKeys key l).Nodup := by
  suffices h : ∀ (l : List α) (acc : List ℤ), acc.Nodup →
      (l.foldl (fun acc t => if key t ∈ acc then acc else acc ++ [key t]) acc).Nodup by
    exact h l [] (by simp)
  intro l
  induction l with
  | nil => intro acc hacc; simpa using hacc
  | cons x t ih =>
    intro acc hacc
    rw [List.foldl_cons]
    by_cases hx : key x ∈ acc
    · simpa [hx] using ih acc hacc
    · refine ih _ ?_
      simp only [hx, if_false]
      refine List.Nodup.append hacc (by simp) ?_
      intro a ha hb
      rw [List.mem_singleton] at hb
      subst hb
      exact hx ha

/-- In an ascending pairwise-sorted list, the head of the reverse is a
maximum element. -/
theorem head_reverse_is_max {l : List ℤ} (hp : l.Pairwise (fun a b => a ≤ b)) {d : ℤ}
    (hd : l.reverse.head? = some d) : d ∈ l ∧ ∀ x ∈ l, x ≤ d := by
  have hrev : l.reverse.Pairwise (fun a b => b ≤ a) := List.pairwise_reverse.mpr hp
  cases hr : l.reverse with
  | nil => rw [hr] at hd; simp at hd
  | cons h t =>
    rw [hr] at hd
    have hhd : h = d := by simpa using hd
    subst hhd
    rw [hr] at hrev
    rcases List.pairwise_cons.mp hrev with ⟨hall, _⟩
    constructor
    · have hmem : h ∈ l.reverse := by rw [hr]; exact List.mem_cons_self _ _
      simpa using hmem
    · intro x hx
      have hx2 : x ∈ l.reverse := by simpa using hx
      rw [hr] at hx2
      rcases List.mem_cons.mp hx2 with heq | hxt
      · exact le_of_eq heq
      · exact hall x hxt

/-! ## Lemmas about Python rounding -/

theorem pyRoundInt_nonneg {q : ℚ} (h : 0 ≤ q) : 0 ≤ pyRoundInt q := by
  unfold pyRoundInt
  have hf : (0 : ℤ) ≤ ⌊q⌋ := Int.floor_nonneg.mpr h
  split_ifs <;> omega

theorem pyRoundInt_le {q : ℚ} {n : ℤ} (h : q ≤ n) : pyRoundInt q ≤ n := by
  unfold pyRoundInt
  have hf : ⌊q⌋ ≤ n := by
    have := Int.floor_le_floor h
    simpa using this
  have hup : (1 : ℚ)/2 ≤ q - ⌊q⌋ → ⌊q⌋ + 1 ≤ n := by
    intro hhalf
    have h1 : (⌊q⌋ : ℚ) < q := by linarith
    have h2 : (⌊q⌋ : ℚ) < (n : ℚ) := lt_of_lt_of_le h1 h
    have h3 : ⌊q⌋ < n := by exact_mod_cast h2
    omega
  split_ifs with h1 h2 h3
  · exact hf
  · exact hup (le_of_lt h2)
  · exact hf
  · exact hup (not_lt.mp h1)

theorem pyRound_nonneg {q : ℚ} (h : 0 ≤ q) (nd : ℕ) : 0 ≤ pyRound nd q := by
  unfold pyRound
  apply div_nonneg
  · exact_mod_cast pyRoundInt_nonneg (by positivity)
  · positivity

theorem pyRound_le {q : ℚ} {n : ℤ} (h : q ≤ n) (nd : ℕ) : pyRound nd q ≤ n := by
  unfold pyRound
  have hpow : (0 : ℚ) < (10 : ℚ) ^ nd := by positivity
  rw [div_le_iff₀ hpow]
  have h1 : q * (10 : ℚ) ^ nd ≤ ((n * 10 ^ nd : ℤ) : ℚ) := by
    push_cast
    exact mul_le_mul_of_nonneg_right h (le_of_lt hpow)
  have h2 := pyRoundInt_le h1
  calc (pyRoundInt (q * (10 : ℚ) ^ nd) : ℚ) ≤ ((n * 10 ^ nd : ℤ) : ℚ) := by exact_mod_cast h2
    _ = (n : ℚ) * (10 : ℚ) ^ nd := by push_cast; ring

/-! ## Spec-side reference definitions -/

/-- Split a character list into its lines at newline characters. -/
def splitLinesGo (cur : Chars) : Chars → List Chars
  | [] => [cur.reverse]
  | c :: rest =>
    if c == '\n' then cur.reverse :: splitLinesGo [] rest
    else splitLinesGo (c :: cur) rest

/-- Modelled from the spec: "looks for a line-anchored marker" — the rating
pattern is required to start at the beginning of some line of the text
(the source's `re.search` has no such anchor). -/
def lineAnchoredRating (text : String) : Option DayRating :=
  (splitLinesGo [] text.data).findSome? matchMarkAt

/-! ## Claim theorems -/

/-- Claim C5, counterexample: the claim says parse_rating matches only a
line-anchored "MARK: value" marker.  The source uses an unanchored
`re.search`: the text "REMARK: good" contains no line that starts with the
marker, yet the embedded occurrence of "MARK: good" inside "REMARK" matches
and the function returns good. -/
theorem parse_day_rating_matches_unanchored :
    parse_day_rating "REMARK: good" = some DayRating.good ∧
    lineAnchoredRating "REMARK: good" = none := by
  constructor <;> decide

theorem scanRating_append_isSome (cs : Chars) :
    (scanRating (cs ++ "MARK: very good".data)).isSome = true := by
  induction cs with
  | nil => decide
  | cons c rest ih =>
    simp only [List.cons_append, scanRating]
    cases h : matchMarkAt (c :: (rest ++ "MARK: very good".data)) with
    | some r => simp [h]
    | none => simp only [h]; exact ih

/-- Claim C5 (amended): parse_rating matches a "MARK: value" marker occurring
anywhere in the text (unanchored substring search, not line-anchored),
case-insensitively with contiguous whitespace normalized, and multi-word
labels are matched before single-word ones: parse_rating("MARK: very good")
returns very_good, not a partial match against good. -/
theorem parse_day_rating_amended :
    (∀ s : String, (parse_day_rating (s ++ "MARK: very good")).isSome = true) ∧
    parse_day_rating "MARK: very good" = some DayRating.very_good ∧
    parse_day_rating "mArK  : \t VERY   gOOd" = some DayRating.very_good ∧
    parse_day_rating "MARK: very good" ≠ some DayRating.good := by
  refine ⟨?_, by decide, by decide, by decide⟩
  intro s
  have hd : (s ++ "MARK: very good").data = s.data ++ "MARK: very good".data := by
    rcases s with ⟨sd⟩
    rfl
  rw [parse_day_rating, hd]
  exact scanRating_append_isSome s.data

/-- Claim C6: the partner-marker pattern is evaluated before the bare minus
pattern: whenever the upper-cased text contains "MINUS TESTIK KATE" (or the
"MINUS TEST KATE" variant), parse_testik returns minus_with_partner
(MINUS_KATE) — never the bare MINUS, although the bare substring also
occurs in such a text. -/
theorem parse_testik_partner_before_minus (text : String)
    (h : containsSub "MINUS TESTIK KATE".data (pyUpper text.data) = true ∨
         containsSub "MINUS TEST KATE".data (pyUpper text.data) = true) :
    parse_testik text = some TestikStatus.MINUS_KATE := by
  unfold parse_testik
  rcases h with h | h <;> simp [h]

theorem parse_testik_partner_before_minus_witness :
    (containsSub "MINUS TESTIK KATE".data (pyUpper "MINUS TESTIK KATE".data) = true ∨
     containsSub "MINUS TEST KATE".data (pyUpper "MINUS TESTIK KATE".data) = true) ∧
    parse_testik "MINUS TESTIK KATE" = some TestikStatus.MINUS_KATE :=
  ⟨Or.inl (by decide),
    parse_testik_partner_before_minus "MINUS TESTIK KATE" (Or.inl (by decide))⟩

theorem ratingComponent_bounds (r : DailyRecord) :
    0 ≤ ratingComponent r ∧ ratingComponent r ≤ 25 := by
  unfold ratingComponent
  cases hr : r.rating with
  | none => norm_num
  | some x => cases x <;> norm_num [DayRating.score]

theorem hoursComponent_bounds (r : DailyRecord) (h : 0 ≤ r.total_hours) :
    0 ≤ hoursComponent r ∧ hoursComponent r ≤ 25 := by
  unfold hoursComponent
  refine ⟨le_min ?_ (by norm_num), min_le_right _ _⟩
  have h1 : (0 : ℚ) ≤ r.total_hours / 10 := div_nonneg h (by norm_num)
  linarith

theorem sleepComponent_bounds (r : DailyRecord) :
    0 ≤ sleepComponent r ∧ sleepComponent r ≤ 20 := by
  unfold sleepComponent
  cases hs : r.sleep.sleep_hours with
  | none => norm_num
  | some h =>
    simp only
    split_ifs with h4
    · refine ⟨le_min ?_ (by norm_num), min_le_right _ _⟩
      have h1 : (0 : ℚ) ≤ h / 8 := div_nonneg (by linarith) (by norm_num)
      linarith
    · norm_num

theorem activityComponent_bounds (r : DailyRecord) :
    0 ≤ activityComponent r ∧ activityComponent r ≤ 15 := by
  unfold activityComponent
  refine ⟨le_min ?_ (by norm_num), min_le_right _ _⟩
  have h1 : (0 : ℚ) ≤ (r.tasks_count : ℚ) / 6 := by positivity
  linarith

theorem bonusComponent_bounds (r : DailyRecord) :
    0 ≤ bonusComponent r ∧ bonusComponent r ≤ 15 := by
  unfold bonusComponent
  split_ifs <;> norm_num

/-- Claim C7: for a record with nonnegative total_hours (a DailyRecord
invariant — aggregation sums nonnegative per-row hours), the productivity
score is in [0, 100] and is the round-to-1-decimal of the sum of the five
components: rating (≤ 25, neutral 12.5 when absent), hours (≤ 25), sleep
(≤ 20, exactly 0 when known and below 4, neutral 10 when unknown), task
count (≤ 15), and activity bonus (≤ 15). -/
theorem productivity_score_range (r : DailyRecord) (h : 0 ≤ r.total_hours) :
    (0 ≤ r.productivity_score ∧ r.productivity_score ≤ 100) ∧
    ratingComponent r ≤ 25 ∧ (r.rating = none → ratingComponent r = 25/2) ∧
    hoursComponent r ≤ 25 ∧
    sleepComponent r ≤ 20 ∧
    (∀ hs : ℚ, r.sleep.sleep_hours = some hs → hs < 4 → sleepComponent r = 0) ∧
    (r.sleep.sleep_hours = none → sleepComponent r = 10) ∧
    activityComponent r ≤ 15 ∧ bonusComponent r ≤ 15 ∧
    r.productivity_score = pyRound 1 (ratingComponent r + hoursComponent r +
      sleepComponent r + activityComponent r + bonusComponent r) := by
  obtain ⟨hr0, hr25⟩ := ratingComponent_bounds r
  obtain ⟨hh0, hh25⟩ := hoursComponent_bounds r h
  obtain ⟨hs0, hs20⟩ := sleepComponent_bounds r
  obtain ⟨ha0, ha15⟩ := activityComponent_bounds r
  obtain ⟨hb0, hb15⟩ := bonusComponent_bounds r
  refine ⟨⟨?_, ?_⟩, hr25, ?_, hh25, hs20, ?_, ?_, ha15, hb15, rfl⟩
  · exact pyRound_nonneg (by linarith) 1
  · have h100 : ratingComponent r + hoursComponent r + sleepComponent r
        + activityComponent r + bonusComponent r ≤ ((100 : ℤ) : ℚ) := by
      push_cast
      linarith
    exact_mod_cast pyRound_le h100 1
  · intro hnone
    unfold ratingComponent
    rw [hnone]
  · intro hs hsome hlt
    unfold sleepComponent
    rw [hsome]
    simp [not_le.mpr hlt]
  · intro hnone
    unfold sleepComponent
    rw [hnone]

def c7Rec : DailyRecord :=
  { entry_date := 0, rating := some .perfect, sleep := { sleep_hours := some 8 }
    total_hours := 10, tasks_count := 6
    had_workout := true, had_university := true, had_coding := true }

theorem productivity_score_range_witness :
    0 ≤ c7Rec.total_hours ∧
    (0 ≤ c7Rec.productivity_score ∧ c7Rec.productivity_score ≤ 100) :=
  ⟨by decide, (productivity_score_range c7Rec (by decide)).1⟩

def c4Tasks : List TaskEntry :=
  [ { id := "1", title := "a", entry_date := 10, tags := ["Gym"] }
  , { id := "2", title := "b", entry_date := 10, tags := ["GYM"] } ]

/-- Claim C4 (code bug): the activities list is supposed to be de-duplicated
by case-insensitive comparison, but the source checks the UPPER-CASED tag
against a list storing ORIGINAL-case tags (`tag_upper not in all_tags`
with `all_tags.append(tag)`), so de-duplication fails whenever the
first-seen spelling is not fully upper-case.  Failing input: two same-day
rows tagged "Gym" then "GYM" produce activities ["Gym", "GYM"] — two
entries equal under case-insensitive comparison. -/
theorem aggregate_dedup_case_bug :
    (aggregate_daily c4Tasks).map (fun r => r.activities) = [["Gym", "GYM"]] ∧
    pyUpperStr "Gym" = pyUpperStr "GYM" := by
  constructor <;> decide

theorem aggregate_map_dates (tasks : List TaskEntry) :
    (aggregate_daily tasks).map (fun r => r.entry_date) =
      sortIntsDesc (distinctTaskDates tasks) := by
  unfold aggregate_daily
  rw [List.map_map]
  have h : ∀ d ∈ sortIntsDesc (distinctTaskDates tasks),
      ((fun r : DailyRecord => r.entry_date) ∘
        (fun d => buildDay d (tasks.filter (fun t => t.entry_date = d)))) d = id d :=
    fun d _ => rfl
  rw [List.map_congr_left h, List.map_id]

/-- Claim C1, counterexample: the record aggregation is claimed to return the
records sorted ascending by date, but the source iterates
`sorted(by_date.items(), reverse=True)`: two rows dated 1 and 2 aggregate
to the date list [2, 1], which is not ascending. -/
theorem aggregate_not_ascending :
    (aggregate_daily [{ id := "1", title := "a", entry_date := 1 },
        { id := "2", title := "b", entry_date := 2 }]).map (fun r => r.entry_date) = [2, 1] ∧
    ¬ ((aggregate_daily [{ id := "1", title := "a", entry_date := 1 },
        { id := "2", title := "b", entry_date := 2 }]).map
          (fun r => r.entry_date)).Pairwise (fun a b : ℤ => a ≤ b) := by
  have h : (aggregate_daily [{ id := "1", title := "a", entry_date := 1 },
      { id := "2", title := "b", entry_date := 2 }]).map (fun r => r.entry_date) = [2, 1] := by
    decide
  refine ⟨h, ?_⟩
  rw [h]
  intro hp
  have h21 := (List.pairwise_cons.mp hp).1 1 (by simp)
  omega

/-- Claim C1 (amended): the record aggregation produces exactly one
DailyRecord per distinct date appearing in the input (the output dates are
pairwise distinct and are exactly the input rows' dates), and the returned
list is sorted DESCENDING by date (most recent first) — not ascending as
the spec states. -/
theorem aggregate_one_per_date_sorted_desc (tasks : List TaskEntry) :
    ((aggregate_daily tasks).map (fun r => r.entry_date)).Pairwise (fun a b => b < a) ∧
    ∀ d : ℤ, (d ∈ (aggregate_daily tasks).map (fun r => r.entry_date) ↔
      ∃ t ∈ tasks, t.entry_date = d) := by
  rw [aggregate_map_dates]
  constructor
  · have hpair := sortIntsDesc_pairwise (distinctTaskDates tasks)
    have hnodup : (sortIntsDesc (distinctTaskDates tasks)).Nodup := by
      unfold sortIntsDesc
      exact ((stableSortBy_perm _ _).nodup_iff).mpr (nodup_distinctKeys _ _)
    refine (hpair.and hnodup).imp ?_
    rintro a b ⟨hle, hne⟩
    exact lt_of_le_of_ne hle (fun heq => hne heq.symm)
  · intro d
    unfold sortIntsDesc
    rw [(stableSortBy_perm _ _).mem_iff]
    unfold distinctTaskDates
    exact mem_distinctKeys _ _ _

theorem recordGo_all (m : List ℤ) :
    ∀ (l : List ℤ), (∀ d ∈ l, d ∈ m) → ∀ best run,
      recordGo m best run l = max best (run + l.length) := by
  intro l
  induction l with
  | nil => intro _ best run; simp [recordGo]
  | cons d t ih =>
    intro hall best run
    have hd : d ∈ m := hall d (List.mem_cons_self _ _)
    simp only [recordGo, if_pos hd]
    rw [ih (fun x hx => hall x (List.mem_cons_of_mem _ hx)) best (run + 1)]
    congr 1
    simp only [List.length_cons]
    omega

theorem current_streak_cons (m : List ℤ) (x : ℤ) (l : List ℤ) :
    current_streak m (x :: l) = if x ∈ m then current_streak m l + 1 else 0 := rfl

theorem recordGo_cons (m : List ℤ) (best run : ℕ) (d : ℤ) (t : List ℤ) :
    recordGo m best run (d :: t) =
      if d ∈ m then recordGo m best (run + 1) t
      else recordGo m (max best run) 0 t := rfl

theorem current_streak_append (m : List ℤ) (xs : List ℤ) (d : ℤ) :
    current_streak m (xs ++ [d]) =
      if ∀ x ∈ xs, x ∈ m then xs.length + (if d ∈ m then 1 else 0)
      else current_streak m xs := by
  induction xs with
  | nil => simp [current_streak_cons, current_streak]
  | cons x t ih =>
    rw [List.cons_append, current_streak_cons, ih]
    by_cases hx : x ∈ m
    · by_cases hall : ∀ y ∈ t, y ∈ m
      · have hall2 : ∀ y ∈ x :: t, y ∈ m := by
          intro y hy
          rcases List.mem_cons.mp hy with rfl | hyt
          · exact hx
          · exact hall _ hyt
        rw [if_pos hx, if_pos hall, if_pos hall2, List.length_cons]
        split_ifs <;> omega
      · have hall2 : ¬ ∀ y ∈ x :: t, y ∈ m :=
          fun h => hall (fun y hy => h y (List.mem_cons_of_mem _ hy))
        rw [if_pos hx, if_neg hall, if_neg hall2, current_streak_cons, if_pos hx]
    · have hall2 : ¬ ∀ y ∈ x :: t, y ∈ m := fun h => hx (h x (List.mem_cons_self _ _))
      rw [if_neg hx, if_neg hall2, current_streak_cons, if_neg hx]

theorem current_le_recordGo (m : List ℤ) :
    ∀ (l : List ℤ) (best run : ℕ),
      current_streak m l.reverse ≤ recordGo m best run l := by
  intro l
  induction l with
  | nil => intro best run; simp [current_streak, recordGo]
  | cons d t ih =>
    intro best run
    rw [List.reverse_cons, current_streak_append, recordGo_cons]
    by_cases hd : d ∈ m
    · rw [if_pos hd, if_pos hd]
      by_cases hall : ∀ x ∈ t.reverse, x ∈ m
      · rw [if_pos hall]
        have hallt : ∀ x ∈ t, x ∈ m := fun x hx => hall x (by simpa using hx)
        rw [recordGo_all m t hallt best (run + 1)]
        have h1 : t.reverse.length + 1 ≤ run + 1 + t.length := by
          rw [List.length_reverse]
          omega
        exact le_trans h1 (le_max_right _ _)
      · rw [if_neg hall]
        exact ih best (run + 1)
    · rw [if_neg hd, if_neg hd]
      by_cases hall : ∀ x ∈ t.reverse, x ∈ m
      · rw [if_pos hall]
        have hallt : ∀ x ∈ t, x ∈ m := fun x hx => hall x (by simpa using hx)
        rw [recordGo_all m t hallt (max best run) 0]
        have h1 : t.reverse.length + 0 ≤ 0 + t.length := by
          rw [List.length_reverse]
          omega
        exact le_trans h1 (le_max_right _ _)
      · rw [if_neg hall]
        exact ih (max best run) 0

/-- Claim C9: for every record list and every streak entry produced by
compute_streaks, the current streak (consecutive matching days ending at
the most recent date) is less than or equal to the record streak (longest
matching run anywhere in the date-sorted sequence). -/
theorem streaks_current_le_record (recs : List DailyRecord) (s : StreakInfo)
    (hs : s ∈ compute_streaks recs) : s.current ≤ s.record := by
  simp only [compute_streaks, compute_streaksCore] at hs
  cases hemp : (sortRecsAsc (recs.filter notWeekly)).isEmpty with
  | true => simp [hemp] at hs
  | false =>
    simp only [hemp, Bool.false_eq_true, if_false, List.mem_cons,
      List.not_mem_nil, or_false] at hs
    rcases hs with rfl | rfl | rfl | rfl | rfl <;>
      (simp only [mkStreak, record_streak]; exact current_le_recordGo _ _ _ _)

def c9Recs : List DailyRecord :=
  [ { entry_date := 1, had_workout := true, testik := some .PLUS }
  , { entry_date := 2, rating := some .good, total_hours := 3 } ]

def c9Streak : StreakInfo := ⟨"TESTIK PLUS", "✅", 0, 1, none⟩

theorem streaks_current_le_record_witness :
    c9Streak ∈ compute_streaks c9Recs ∧ c9Streak.current ≤ c9Streak.record :=
  ⟨by decide, streaks_current_le_record c9Recs c9Streak (by decide)⟩

theorem sortRecsAsc_eq_nil_iff (l : List DailyRecord) :
    sortRecsAsc l = [] ↔ l = [] := by
  constructor
  · intro h
    have hlen := (stableSortBy_perm (fun a b : DailyRecord =>
      decide (a.entry_date ≤ b.entry_date)) l).length_eq
    rw [show stableSortBy (fun a b : DailyRecord =>
      decide (a.entry_date ≤ b.entry_date)) l = sortRecsAsc l from rfl, h] at hlen
    exact List.length_eq_zero.mp hlen.symm
  · intro h
    subst h
    rfl

/-- Claim C10: compute_streaks returns the empty list when the
non-period-summary subset is empty, and otherwise exactly five StreakInfo
entries in this fixed order — TESTIK PLUS, GYM, productive WORK (2 or more
non-summary activities, or total_hours >= 1), rating >= good, and
sleep >= 7h — each carrying the current/record streaks of its predicate
over the date-sorted distinct dates. -/
theorem compute_streaks_five_fixed (recs : List DailyRecord) :
    (recs.filter notWeekly = [] → compute_streaks recs = []) ∧
    (recs.filter notWeekly ≠ [] →
      (compute_streaks recs).length = 5 ∧
      (compute_streaks recs).map (fun s => s.name) =
        ["TESTIK PLUS", "GYM", "WORK", "Оценка ≥ good", "Сон ≥ 7ч"] ∧
      (compute_streaks recs).map (fun s => (s.current, s.record)) =
        [predPlus, predGym, predWork, predGoodRating, predSleep7].map (fun p =>
          (current_streak (matchDates p (sortRecsAsc (recs.filter notWeekly)))
              (sortIntsAsc (distinctRecDates (sortRecsAsc (recs.filter notWeekly)))).reverse,
            record_streak (matchDates p (sortRecsAsc (recs.filter notWeekly)))
              (sortIntsAsc (distinctRecDates (sortRecsAsc (recs.filter notWeekly))))))) := by
  constructor
  · intro hnil
    rw [compute_streaks, hnil]
    rfl
  · intro hne
    have hemp : (sortRecsAsc (recs.filter notWeekly)).isEmpty = false := by
      cases h : (sortRecsAsc (recs.filter notWeekly)).isEmpty with
      | false => rfl
      | true =>
        exact absurd ((sortRecsAsc_eq_nil_iff _).mp (List.isEmpty_iff.mp h)) hne
    refine ⟨?_, ?_, ?_⟩ <;>
      simp [compute_streaks, compute_streaksCore, hemp, mkStreak]

theorem compute_streaks_five_fixed_witness :
    compute_streaks [] = [] ∧
    (compute_streaks c9Recs).map (fun s => s.name) =
      ["TESTIK PLUS", "GYM", "WORK", "Оценка ≥ good", "Сон ≥ 7ч"] :=
  ⟨(compute_streaks_five_fixed []).1 rfl,
    ((compute_streaks_five_fixed c9Recs).2 (by decide)).2.1⟩

/-- Modelled from the spec: "last_date = most recent date for which the
predicate held, or None" — the maximum entry date among the records
satisfying the predicate. -/
def specLastMatch (p : DailyRecord → Bool) (recs : List DailyRecord) : Option ℤ :=
  ((recs.filter p).map (fun r => r.entry_date)).max?

/-- Claim C3, counterexample: with records on dates 1 (workout) and 2 (no
workout), the most recent date on which the GYM predicate held is 1, but
the GYM entry (index 1) of compute_streaks carries last_date = none: the
source only reports the overall most recent date, and only when the
predicate holds there. -/
theorem streaks_last_date_not_most_recent_match :
    (compute_streaks c9Recs).map (fun s => s.last_date) =
      [none, none, some 2, some 2, none] ∧
    specLastMatch predGym c9Recs = some 1 := by
  constructor <;> decide

theorem mem_sorted_days_iff (recs : List DailyRecord) (r : DailyRecord) :
    r ∈ sortRecsAsc (recs.filter notWeekly) ↔ r ∈ recs ∧ notWeekly r = true := by
  unfold sortRecsAsc
  rw [(stableSortBy_perm _ _).mem_iff, List.mem_filter]

theorem mem_dates_asc_iff (recs : List DailyRecord) (x : ℤ) :
    x ∈ sortIntsAsc (distinctRecDates (sortRecsAsc (recs.filter notWeekly))) ↔
      ∃ r ∈ recs, notWeekly r = true ∧ r.entry_date = x := by
  unfold sortIntsAsc
  rw [(stableSortBy_perm _ _).mem_iff]
  unfold distinctRecDates
  rw [mem_distinctKeys]
  constructor
  · rintro ⟨r, hr, hre⟩
    rcases (mem_sorted_days_iff recs r).mp hr with ⟨h1, h2⟩
    exact ⟨r, h1, h2, hre⟩
  · rintro ⟨r, h1, h2, hre⟩
    exact ⟨r, (mem_sorted_days_iff recs r).mpr ⟨h1, h2⟩, hre⟩

theorem latest_mem_matchDates_iff (recs : List DailyRecord)
    (p : DailyRecord → Bool) (x : ℤ) :
    x ∈ matchDates p (sortRecsAsc (recs.filter notWeekly)) ↔
      ∃ r ∈ recs, notWeekly r = true ∧ r.entry_date = x ∧ p r = true := by
  unfold matchDates
  simp only [List.mem_map, List.mem_filter]
  constructor
  · rintro ⟨r, ⟨hrd, hrp⟩, hre⟩
    rcases (mem_sorted_days_iff recs r).mp hrd with ⟨h1, h2⟩
    exact ⟨r, h1, h2, hre, hrp⟩
  · rintro ⟨r, h1, h2, hre, hp⟩
    exact ⟨r, ⟨(mem_sorted_days_iff recs r).mpr ⟨h1, h2⟩, hp⟩, hre⟩

theorem stableSortBy_eq_nil_iff (le : α → α → Bool) (l : List α) :
    stableSortBy le l = [] ↔ l = [] := by
  constructor
  · intro h
    have hlen := (stableSortBy_perm le l).length_eq
    rw [h] at hlen
    exact List.length_eq_zero.mp hlen.symm
  · intro h
    subst h
    rfl

theorem nonempty_distinctKeys (key : α → ℤ) (l : List α) (h : l ≠ []) :
    distinctKeys key l ≠ [] := by
  cases l with
  | nil => exact absurd rfl h
  | cons x t =>
    intro hnil
    have hx : key x ∈ distinctKeys key (x :: t) :=
      (mem_distinctKeys key (x :: t) (key x)).mpr ⟨x, List.mem_cons_self _ _, rfl⟩
    rw [hnil] at hx
    exact List.not_mem_nil _ hx

theorem mkStreak_last_date_eq (recs : List DailyRecord) (p : DailyRecord → Bool)
    (name emoji : String) (l : ℤ)
    (hhead : (sortIntsAsc (distinctRecDates (sortRecsAsc
      (recs.filter notWeekly)))).reverse.head? = some l) :
    (mkStreak (sortIntsAsc (distinctRecDates (sortRecsAsc (recs.filter notWeekly))))
        (sortIntsAsc (distinctRecDates (sortRecsAsc (recs.filter notWeekly)))).reverse
        (sortRecsAsc (recs.filter notWeekly)) name emoji p).last_date =
      if ∃ r ∈ recs, notWeekly r = true ∧ r.entry_date = l ∧ p r = true
      then some l else none := by
  simp only [mkStreak]
  rw [hhead]
  exact if_congr (latest_mem_matchDates_iff recs p l) rfl rfl

/-- Claim C3 (amended): for every record list with a non-empty non-summary
subset there is a unique latest date among the non-summary records, and
each of the five streak entries carries last_date = some latest EXACTLY
when its predicate holds on a record of that latest date, and None
otherwise — so an older matching date is never reported (the code only
reports the overall most recent date, and only when the predicate holds
there). -/
theorem streaks_last_date_is_latest (recs : List DailyRecord)
    (hne : recs.filter notWeekly ≠ []) :
    ∃ latest : ℤ,
      (∃ r ∈ recs, notWeekly r = true ∧ r.entry_date = latest) ∧
      (∀ r ∈ recs, notWeekly r = true → r.entry_date ≤ latest) ∧
      (compute_streaks recs).map (fun s => s.last_date) =
        [predPlus, predGym, predWork, predGoodRating, predSleep7].map (fun p =>
          if ∃ r ∈ recs, notWeekly r = true ∧ r.entry_date = latest ∧ p r = true
          then some latest else none) := by
  have hdays_ne : sortRecsAsc (recs.filter notWeekly) ≠ [] := by
    intro h
    exact hne ((sortRecsAsc_eq_nil_iff _).mp h)
  have hemp : (sortRecsAsc (recs.filter notWeekly)).isEmpty = false := by
    cases h : (sortRecsAsc (recs.filter notWeekly)).isEmpty with
    | false => rfl
    | true => exact absurd (List.isEmpty_iff.mp h) hdays_ne
  have hda_ne : sortIntsAsc (distinctRecDates (sortRecsAsc (recs.filter notWeekly))) ≠ [] := by
    intro h
    unfold sortIntsAsc at h
    unfold distinctRecDates at h
    exact nonempty_distinctKeys (fun r => r.entry_date) _ hdays_ne
      ((stableSortBy_eq_nil_iff _ _).mp h)
  obtain ⟨l, hhead⟩ : ∃ l, (sortIntsAsc (distinctRecDates (sortRecsAsc
      (recs.filter notWeekly)))).reverse.head? = some l := by
    cases hh : (sortIntsAsc (distinctRecDates (sortRecsAsc
        (recs.filter notWeekly)))).reverse.head? with
    | none =>
      exfalso
      have hrevnil := List.head?_eq_none_iff.mp hh
      exact hda_ne (by simpa using hrevnil)
    | some l => exact ⟨l, rfl⟩
  obtain ⟨hin, hmax⟩ := head_reverse_is_max (sortIntsAsc_pairwise _) hhead
  refine ⟨l, (mem_dates_asc_iff recs l).mp hin, ?_, ?_⟩
  · intro r hr hw
    exact hmax r.entry_date ((mem_dates_asc_iff recs r.entry_date).mpr ⟨r, hr, hw, rfl⟩)
  · simp only [compute_streaks, compute_streaksCore, hemp, Bool.false_eq_true,
      if_false, List.map_cons, List.map_nil]
    rw [mkStreak_last_date_eq recs predPlus "TESTIK PLUS" "✅" l hhead,
      mkStreak_last_date_eq recs predGym "GYM" "🏋️" l hhead,
      mkStreak_last_date_eq recs predWork "WORK" "📋" l hhead,
      mkStreak_last_date_eq recs predGoodRating "Оценка ≥ good" "😊" l hhead,
      mkStreak_last_date_eq recs predSleep7 "Сон ≥ 7ч" "😴" l hhead]

def c3Recs : List DailyRecord :=
  [ { entry_date := 1, had_workout := true }
  , { entry_date := 2, had_workout := true } ]

theorem streaks_last_date_is_latest_witness :
    c3Recs.filter notWeekly ≠ [] ∧
    ∃ latest : ℤ,
      (∃ r ∈ c3Recs, notWeekly r = true ∧ r.entry_date = latest) ∧
      (∀ r ∈ c3Recs, notWeekly r = true → r.entry_date ≤ latest) ∧
      (compute_streaks c3Recs).map (fun s => s.last_date) =
        [predPlus, predGym, predWork, predGoodRating, predSleep7].map (fun p =>
          if ∃ r ∈ c3Recs, notWeekly r = true ∧ r.entry_date = latest ∧ p r = true
          then some latest else none) :=
  ⟨by decide, streaks_last_date_is_latest c3Recs (by decide)⟩

theorem minusRiskOf_nonneg (l : List DailyRecord) : 0 ≤ minusRiskOf l := by
  unfold minusRiskOf; split_ifs <;> norm_num

theorem sleepRiskOf_nonneg (l : List DailyRecord) : 0 ≤ sleepRiskOf l := by
  unfold sleepRiskOf; dsimp only; split_ifs <;> norm_num

theorem ratingRiskOf_nonneg (l : List DailyRecord) : 0 ≤ ratingRiskOf l := by
  unfold ratingRiskOf; dsimp only; split_ifs <;> norm_num

theorem hoursRiskOf_nonneg (l : List DailyRecord) : 0 ≤ hoursRiskOf l := by
  unfold hoursRiskOf; split_ifs <;> norm_num

theorem workoutRiskOf_nonneg (l : List DailyRecord) : 0 ≤ workoutRiskOf l := by
  unfold workoutRiskOf; split_ifs <;> norm_num

theorem tasksRiskOf_nonneg (l : List DailyRecord) : 0 ≤ tasksRiskOf l := by
  unfold tasksRiskOf; split_ifs <;> norm_num

theorem rawRisk_nonneg (l : List DailyRecord) : 0 ≤ rawRisk l := by
  unfold rawRisk
  have h1 := minusRiskOf_nonneg l
  have h2 := sleepRiskOf_nonneg l
  have h3 := ratingRiskOf_nonneg l
  have h4 := hoursRiskOf_nonneg l
  have h5 := workoutRiskOf_nonneg l
  have h6 := tasksRiskOf_nonneg l
  linarith

theorem levelOf_eq_critical_iff (x : ℚ) : levelOf x = "critical" ↔ 70 ≤ x := by
  unfold levelOf
  by_cases h70 : 70 ≤ x
  · rw [if_pos h70]
    exact iff_of_true rfl h70
  · rw [if_neg h70]
    apply iff_of_false _ h70
    intro hstr
    split_ifs at hstr <;> exact absurd hstr (by decide)

theorem levelOf_eq_high_iff (x : ℚ) : levelOf x = "high" ↔ 45 ≤ x ∧ x < 70 := by
  unfold levelOf
  split_ifs with h1 h2 h3
  all_goals constructor
  · intro hstr; exact absurd hstr (by decide)
  · rintro ⟨-, hb⟩; linarith
  · intro _; exact ⟨h2, by linarith⟩
  · intro _; rfl
  · intro hstr; exact absurd hstr (by decide)
  · rintro ⟨ha, -⟩; exact absurd ha h2
  · intro hstr; exact absurd hstr (by decide)
  · rintro ⟨ha, -⟩; exact absurd ha h2

theorem levelOf_eq_medium_iff (x : ℚ) : levelOf x = "medium" ↔ 20 ≤ x ∧ x < 45 := by
  unfold levelOf
  split_ifs with h1 h2 h3
  case _ =>
    apply iff_of_false (by decide)
    rintro ⟨-, hb⟩; linarith
  case _ =>
    apply iff_of_false (by decide)
    rintro ⟨-, hb⟩; linarith
  case _ =>
    apply iff_of_true rfl
    exact ⟨h3, by linarith⟩
  case _ =>
    apply iff_of_false (by decide)
    rintro ⟨ha, -⟩; exact absurd ha h3

theorem levelOf_eq_low_iff (x : ℚ) : levelOf x = "low" ↔ x < 20 := by
  unfold levelOf
  split_ifs with h1 h2 h3
  case _ => exact iff_of_false (by decide) (by linarith)
  case _ => exact iff_of_false (by decide) (by linarith)
  case _ => exact iff_of_false (by decide) (by linarith)
  case _ => exact iff_of_true rfl (by linarith)

theorem levelOf_iffs (x : ℚ) :
    (levelOf x = "low" ↔ x < 20) ∧
    (levelOf x = "medium" ↔ 20 ≤ x ∧ x < 45) ∧
    (levelOf x = "high" ↔ 45 ≤ x ∧ x < 70) ∧
    (levelOf x = "critical" ↔ 70 ≤ x) :=
  ⟨levelOf_eq_low_iff x, levelOf_eq_medium_iff x,
    levelOf_eq_high_iff x, levelOf_eq_critical_iff x⟩

/-- Claim C8: with at least 3 non-period-summary records available, the
burnout risk score is in [0, 100] (the additive factor sum is capped at
100) and the risk level is determined exactly by the boundaries <20 low,
[20,45) medium, [45,70) high, >=70 critical; with fewer than 3 such
records the "unknown" sentinel with the single insufficient-data factor is
returned. -/
theorem predict_burnout_range_levels (recs : List DailyRecord) :
    (((sortRecsDesc (recs.filter notWeekly)).take 14).length < 3 →
      predict_burnout recs = ⟨"unknown", 0, [BFactor.insufficientData]⟩) ∧
    (3 ≤ ((sortRecsDesc (recs.filter notWeekly)).take 14).length →
      0 ≤ (predict_burnout recs).risk_score ∧
      (predict_burnout recs).risk_score ≤ 100 ∧
      ((predict_burnout recs).risk_level = "low" ↔
        (predict_burnout recs).risk_score < 20) ∧
      ((predict_burnout recs).risk_level = "medium" ↔
        20 ≤ (predict_burnout recs).risk_score ∧ (predict_burnout recs).risk_score < 45) ∧
      ((predict_burnout recs).risk_level = "high" ↔
        45 ≤ (predict_burnout recs).risk_score ∧ (predict_burnout recs).risk_score < 70) ∧
      ((predict_burnout recs).risk_level = "critical" ↔
        70 ≤ (predict_burnout recs).risk_score)) := by
  constructor
  · intro hlt
    show predict_burnoutCore _ = _
    unfold predict_burnoutCore
    dsimp only
    rw [if_pos hlt]
  · intro hge
    have hnlt : ¬ ((sortRecsDesc (recs.filter notWeekly)).take 14).length < 3 :=
      not_lt.mpr hge
    have hscore : (predict_burnout recs).risk_score =
        min (rawRisk (((sortRecsDesc (recs.filter notWeekly)).take 14).take 7)) 100 := by
      show (predict_burnoutCore _).risk_score = _
      unfold predict_burnoutCore
      dsimp only
      rw [if_neg hnlt]
    have hlevel : (predict_burnout recs).risk_level =
        levelOf (min (rawRisk (((sortRecsDesc (recs.filter notWeekly)).take 14).take 7)) 100) := by
      show (predict_burnoutCore _).risk_level = _
      unfold predict_burnoutCore
      dsimp only
      rw [if_neg hnlt]
    rw [hscore, hlevel]
    obtain ⟨hi1, hi2, hi3, hi4⟩ :=
      levelOf_iffs (min (rawRisk (((sortRecsDesc (recs.filter notWeekly)).take 14).take 7)) 100)
    exact ⟨le_min (rawRisk_nonneg _) (by norm_num), min_le_right _ _, hi1, hi2, hi3, hi4⟩

def c8Recs : List DailyRecord :=
  [ { entry_date := 1 }, { entry_date := 2 }, { entry_date := 3 } ]

theorem predict_burnout_range_levels_witness :
    (((sortRecsDesc (([] : List DailyRecord).filter notWeekly)).take 14).length < 3 ∧
      predict_burnout ([] : List DailyRecord) = ⟨"unknown", 0, [BFactor.insufficientData]⟩) ∧
    (3 ≤ ((sortRecsDesc (c8Recs.filter notWeekly)).take 14).length ∧
      0 ≤ (predict_burnout c8Recs).risk_score ∧
      (predict_burnout c8Recs).risk_score ≤ 100) :=
  ⟨⟨by decide, (predict_burnout_range_levels []).1 (by decide)⟩,
    ⟨by decide, ((predict_burnout_range_levels c8Recs).2 (by decide)).1,
      ((predict_burnout_range_levels c8Recs).2 (by decide)).2.1⟩⟩

theorem filter_drop_summary (pre post : List DailyRecord) (x : DailyRecord)
    (hx : x.is_weekly_summary = true) :
    (pre ++ x :: post).filter notWeekly = (pre ++ post).filter notWeekly := by
  have hxf : notWeekly x = false := by simp [notWeekly, hx]
  simp [List.filter_append, List.filter_cons, hxf]

/-- Claim C2: every AnalyticsEngine function — streak computation, burnout
risk, anomaly detection, goal progress, life score, correlations, month
analysis — first filters out is_weekly_summary records, so running it over
a list containing a period-summary row gives a result identical to running
it over the same list with that row removed.  (The GPT-generated
prose fields are external; they too receive identical prompts, since every
prompt is computed from the filtered list.) -/
theorem analytics_ignore_period_summary (pre post : List DailyRecord)
    (x : DailyRecord) (goals : List Goal) (label : String)
    (hx : x.is_weekly_summary = true) :
    compute_streaks (pre ++ x :: post) = compute_streaks (pre ++ post) ∧
    predict_burnout (pre ++ x :: post) = predict_burnout (pre ++ post) ∧
    detect_anomalies (pre ++ x :: post) = detect_anomalies (pre ++ post) ∧
    compute_goal_progress goals (pre ++ x :: post) =
      compute_goal_progress goals (pre ++ post) ∧
    compute_life_score (pre ++ x :: post) = compute_life_score (pre ++ post) ∧
    compute_correlations (pre ++ x :: post) = compute_correlations (pre ++ post) ∧
    analyze_month (pre ++ x :: post) label = analyze_month (pre ++ post) label := by
  have hfil := filter_drop_summary pre post x hx
  refine ⟨?_, ?_, ?_, ?_, ?_, ?_, ?_⟩ <;>
    simp only [compute_streaks, predict_burnout, detect_anomalies,
      compute_goal_progress, compute_life_score, compute_correlations,
      analyze_month, hfil]

def c2Pre : List DailyRecord := [{ entry_date := 1, had_workout := true }]

def c2Post : List DailyRecord := [{ entry_date := 2, rating := some .good }]

def c2X : DailyRecord := { entry_date := 5, is_weekly_summary := true }

def c2Goals : List Goal :=
  [{ id := "g", user_id := 1, name := "gym", target_activity := "GYM", target_count := 3 }]

theorem analytics_ignore_period_summary_witness :
    c2X.is_weekly_summary = true ∧
    (compute_streaks (c2Pre ++ c2X :: c2Post) = compute_streaks (c2Pre ++ c2Post) ∧
      predict_burnout (c2Pre ++ c2X :: c2Post) = predict_burnout (c2Pre ++ c2Post) ∧
      detect_anomalies (c2Pre ++ c2X :: c2Post) = detect_anomalies (c2Pre ++ c2Post) ∧
      compute_goal_progress c2Goals (c2Pre ++ c2X :: c2Post) =
        compute_goal_progress c2Goals (c2Pre ++ c2Post) ∧
      compute_life_score (c2Pre ++ c2X :: c2Post) = compute_life_score (c2Pre ++ c2Post) ∧
      compute_correlations (c2Pre ++ c2X :: c2Post) =
        compute_correlations (c2Pre ++ c2Post) ∧
      analyze_month (c2Pre ++ c2X :: c2Post) "m" = analyze_month (c2Pre ++ c2Post) "m") :=
  ⟨rfl, analytics_ignore_period_summary c2Pre c2Post c2X c2Goals "m" rfl⟩

end DailyAnalyst
